import Mathlib

/-!
Verification of the Stopwatch timer-trace recorder (src/Stopwatch.hpp).

The C++ class `Stopwatch` owns two vectors:

  * `measurements : vector<pair<string, time_point<high_resolution_clock>>>`
  * `samples      : vector<pair<string, int>>`

We embed timestamps as natural numbers of clock ticks (nanoseconds, the
resolution of `high_resolution_clock`).  Since the clock is an ambient
input, each operation takes the sampled `now` as an explicit argument;
the reachability relation `Stopwatch.Reaches` below constrains those
arguments to be monotone, which is the monotonic-clock assumption.

`duration_cast<microseconds>(b - a).count()` truncates the tick
difference toward zero into whole microseconds; we model it with
`Int.tdiv` (C++ integer division truncates toward zero).  The C++ code
then divides by `1000000.0` (and optionally by a sample count) in
`double` arithmetic; we model the resulting numeric values as exact
rationals (`Rat`).  The textual rendering of those numbers
(`operator<<` on `double`, default formatting) is represented by the
symbolic exact rendering `renderRat`; the claims under verification
constrain the surrounding line structure and the numeric values, not
the decimal digits a `double` prints.
-/

/-- The state of a `Stopwatch`: the two vectors of the C++ class.
`measurements` holds (label, timestamp in clock ticks); `samples` holds
(label, sample count), the count being a C++ `int`. -/
structure Stopwatch where
  measurements : List (String × Nat)
  samples : List (String × Int)
deriving Repr, DecidableEq

/-- `Stopwatch::Stopwatch()`: captures `now` and appends ("start", now). -/
def Stopwatch.create (now : Nat) : Stopwatch :=
  { measurements := [("start", now)], samples := [] }

/-- `Stopwatch::addMeasurement(string label)`: appends (label, now) to
`measurements`. -/
def Stopwatch.addMeasurement (s : Stopwatch) (label : String) (now : Nat) : Stopwatch :=
  { s with measurements := s.measurements ++ [(label, now)] }

/-- `Stopwatch::addMeasurement(const string label, int samples)`: appends
(label, now) to `measurements` and (label, samples) to `samples`. -/
def Stopwatch.addMeasurementSampled (s : Stopwatch) (label : String) (count : Int)
    (now : Nat) : Stopwatch :=
  { measurements := s.measurements ++ [(label, now)],
    samples := s.samples ++ [(label, count)] }

/-- `duration_cast<microseconds>(b - a).count()`: the difference of two
tick counts, truncated toward zero into whole microseconds (1 µs = 1000
ticks). -/
def durationMicros (a b : Nat) : Int :=
  Int.tdiv ((b : Int) - (a : Int)) 1000

/-- `micros / 1000000.0`: microseconds rendered as fractional seconds. -/
def secondsOf (d : Int) : Rat :=
  (d : Rat) / 1000000

/-- One line of the timing trace, with its numeric payload kept exact. -/
inductive TraceLine where
  | total (seconds : Rat)
  | interval (prev cur : String) (seconds : Rat)
  | perSample (prev cur : String) (seconds : Rat)
deriving Repr, DecidableEq

/-- Whether a line is the "Total" line. -/
def TraceLine.isTotal : TraceLine → Bool
  | .total _ => true
  | _ => false

/-- Whether a line is an interval line. -/
def TraceLine.isInterval : TraceLine → Bool
  | .interval _ _ _ => true
  | _ => false

/-- Whether a line is a "per sample" line. -/
def TraceLine.isPerSample : TraceLine → Bool
  | .perSample _ _ _ => true
  | _ => false

/-- The inner loop of `getTimingTrace`: for one consecutive pair, scan
the whole `samples` vector and emit one "per sample" line for every
entry whose label equals the current label, its value being the interval
seconds divided by that entry's count. -/
def perSampleLines (prevLabel curLabel : String) (d : Int)
    (samples : List (String × Int)) : List TraceLine :=
  (samples.filter (fun p => p.1 = curLabel)).map
    (fun p => TraceLine.perSample prevLabel curLabel (secondsOf d / (p.2 : Rat)))

/-- The body of the outer loop of `getTimingTrace` for one consecutive
pair (previous, current): the interval line followed by the per-sample
lines of the pair. -/
def pairLines (previous current : String × Nat)
    (samples : List (String × Int)) : List TraceLine :=
  TraceLine.interval previous.1 current.1
      (secondsOf (durationMicros previous.2 current.2)) ::
    perSampleLines previous.1 current.1 (durationMicros previous.2 current.2) samples

/-- The outer loop of `getTimingTrace`: walk the measurement vector from
index 1, emitting the lines of each consecutive pair in order. -/
def intervalLines : List (String × Nat) → List (String × Int) → List TraceLine
  | previous :: current :: rest, samples =>
      pairLines previous current samples ++ intervalLines (current :: rest) samples
  | _, _ => []

/-- `this->measurements[0].second`, the timestamp of the "start" entry.
(The C++ access is well defined because the constructor guarantees the
vector is nonempty; the default is never reached on reachable states.) -/
def Stopwatch.startTime (s : Stopwatch) : Nat :=
  (s.measurements.headD ("", 0)).2

/-- The full trace of `getTimingTrace`, as structured lines: the "Total"
line — measured from `measurements[0]` to the freshly sampled `now` —
followed by the interval and per-sample lines of every consecutive pair. -/
def timingTraceLines (s : Stopwatch) (now : Nat) : List TraceLine :=
  TraceLine.total (secondsOf (durationMicros s.startTime now)) ::
    intervalLines s.measurements s.samples

/-- Symbolic rendering of a numeric value (the C++ code prints a
`double` with default formatting; we print the exact rational). -/
def renderRat (x : Rat) : String :=
  toString x.num ++ "/" ++ toString x.den

/-- The text of one line, `endl` included. -/
def renderLine : TraceLine → String
  | .total x => "Total; start -> now: " ++ renderRat x ++ "s\n"
  | .interval p c x => p ++ " -> " ++ c ++ ": " ++ renderRat x ++ "s\n"
  | .perSample p c x => p ++ " -> " ++ c ++ " per sample: " ++ renderRat x ++ "s\n"

/-- The successive `stream <<` appends of `getTimingTrace`. -/
def renderLines : List TraceLine → String
  | [] => ""
  | l :: ls => renderLine l ++ renderLines ls

/-- `Stopwatch::getTimingTrace()`: the returned string.  `now` is the
`high_resolution_clock::now()` sampled at call time. -/
def Stopwatch.getTimingTrace (s : Stopwatch) (now : Nat) : String :=
  renderLines (timingTraceLines s now)

/-- Reachability of a state through the public interface under a
monotonic clock: `Reaches s t` means `s` arises from construction at
some instant followed by `addMeasurement` calls at non-decreasing
instants, the last sampled instant being `t`. -/
inductive Stopwatch.Reaches : Stopwatch → Nat → Prop where
  | create (t : Nat) : Stopwatch.Reaches (Stopwatch.create t) t
  | add {s : Stopwatch} {t : Nat} (label : String) {t' : Nat} :
      Stopwatch.Reaches s t → t ≤ t' →
      Stopwatch.Reaches (s.addMeasurement label t') t'
  | addSampled {s : Stopwatch} {t : Nat} (label : String) (count : Int) {t' : Nat} :
      Stopwatch.Reaches s t → t ≤ t' →
      Stopwatch.Reaches (s.addMeasurementSampled label count t') t'

/-- A state reachable through the public interface. -/
def Stopwatch.Reachable (s : Stopwatch) : Prop :=
  ∃ t, Stopwatch.Reaches s t

/-! Helper lemmas. -/

lemma perSampleLines_not_interval {x : TraceLine} {pl cl : String} {d : Int}
    {sm : List (String × Int)} (hx : x ∈ perSampleLines pl cl d sm) :
    x.isInterval = false ∧ x.isTotal = false := by
  simp only [perSampleLines, List.mem_map] at hx
  rcases hx with ⟨p, _, rfl⟩
  exact ⟨rfl, rfl⟩

lemma countP_perSampleLines_isInterval (pl cl : String) (d : Int)
    (sm : List (String × Int)) :
    (perSampleLines pl cl d sm).countP TraceLine.isInterval = 0 :=
  List.countP_eq_zero.mpr fun x hx => by
    simp [(perSampleLines_not_interval hx).1]

lemma countP_perSampleLines_isTotal (pl cl : String) (d : Int)
    (sm : List (String × Int)) :
    (perSampleLines pl cl d sm).countP TraceLine.isTotal = 0 :=
  List.countP_eq_zero.mpr fun x hx => by
    simp [(perSampleLines_not_interval hx).2]

lemma countP_pairLines_isInterval (p c : String × Nat) (sm : List (String × Int)) :
    (pairLines p c sm).countP TraceLine.isInterval = 1 := by
  simp [pairLines, List.countP_cons, countP_perSampleLines_isInterval,
    TraceLine.isInterval]

lemma countP_pairLines_isTotal (p c : String × Nat) (sm : List (String × Int)) :
    (pairLines p c sm).countP TraceLine.isTotal = 0 := by
  simp [pairLines, List.countP_cons, countP_perSampleLines_isTotal,
    TraceLine.isTotal]

lemma countP_intervalLines_isInterval (ms : List (String × Nat))
    (sm : List (String × Int)) :
    (intervalLines ms sm).countP TraceLine.isInterval = ms.length - 1 := by
  induction ms with
  | nil => rfl
  | cons a ms ih =>
    cases ms with
    | nil => rfl
    | cons b rest =>
      show (pairLines a b sm ++ intervalLines (b :: rest) sm).countP
          TraceLine.isInterval = (a :: b :: rest).length - 1
      rw [List.countP_append, countP_pairLines_isInterval, ih]
      simp only [List.length_cons]
      omega

lemma countP_intervalLines_isTotal (ms : List (String × Nat))
    (sm : List (String × Int)) :
    (intervalLines ms sm).countP TraceLine.isTotal = 0 := by
  induction ms with
  | nil => rfl
  | cons a ms ih =>
    cases ms with
    | nil => rfl
    | cons b rest =>
      show (pairLines a b sm ++ intervalLines (b :: rest) sm).countP
          TraceLine.isTotal = 0
      rw [List.countP_append, countP_pairLines_isTotal, ih]

lemma intervalLines_append (sm : List (String × Int)) :
    ∀ (xs : List (String × Nat)) (y : String × Nat) (ys : List (String × Nat)),
      intervalLines (xs ++ y :: ys) sm =
        intervalLines (xs ++ [y]) sm ++ intervalLines (y :: ys) sm := by
  intro xs
  induction xs with
  | nil =>
    intro y ys
    cases ys with
    | nil => simp [intervalLines]
    | cons c cs => simp [intervalLines]
  | cons a xs ih =>
    intro y ys
    cases xs with
    | nil =>
      show pairLines a y sm ++ intervalLines (y :: ys) sm =
        (pairLines a y sm ++ intervalLines [y] sm) ++ intervalLines (y :: ys) sm
      show pairLines a y sm ++ intervalLines (y :: ys) sm =
        (pairLines a y sm ++ []) ++ intervalLines (y :: ys) sm
      rw [List.append_nil]
    | cons b xs' =>
      show pairLines a b sm ++ intervalLines ((b :: xs') ++ y :: ys) sm =
        (pairLines a b sm ++ intervalLines ((b :: xs') ++ [y]) sm) ++
          intervalLines (y :: ys) sm
      rw [ih y ys, List.append_assoc]

lemma intervalLines_decomp (front rest : List (String × Nat))
    (previous current : String × Nat) (sm : List (String × Int)) :
    intervalLines (front ++ previous :: current :: rest) sm =
      intervalLines (front ++ [previous]) sm ++
        (pairLines previous current sm ++ intervalLines (current :: rest) sm) := by
  rw [intervalLines_append sm front previous (current :: rest)]
  rfl

lemma Stopwatch.Reaches.head_start {s : Stopwatch} {t : Nat} (h : s.Reaches t) :
    ∃ t0, s.measurements.head? = some ("start", t0) := by
  induction h with
  | create t => exact ⟨t, rfl⟩
  | add label _ _ ih =>
    rcases ih with ⟨t0, h0⟩
    refine ⟨t0, ?_⟩
    simp only [Stopwatch.addMeasurement]
    cases hm : Stopwatch.measurements _ with
    | nil => rw [hm] at h0; simp at h0
    | cons a l => rw [hm] at h0; simp at h0; simp [h0]
  | addSampled label count _ _ ih =>
    rcases ih with ⟨t0, h0⟩
    refine ⟨t0, ?_⟩
    simp only [Stopwatch.addMeasurementSampled]
    cases hm : Stopwatch.measurements _ with
    | nil => rw [hm] at h0; simp at h0
    | cons a l => rw [hm] at h0; simp at h0; simp [h0]

lemma Stopwatch.Reaches.measurements_ne_nil {s : Stopwatch} {t : Nat}
    (h : s.Reaches t) : s.measurements ≠ [] := by
  rcases h.head_start with ⟨t0, h0⟩
  intro hnil
  rw [hnil] at h0
  simp at h0

lemma Stopwatch.Reaches.headD_start {s : Stopwatch} {t : Nat} (h : s.Reaches t) :
    ∃ t0, s.measurements.headD ("", 0) = ("start", t0) := by
  rcases h.head_start with ⟨t0, h0⟩
  exact ⟨t0, by rw [List.headD_eq_head?_getD, h0]; rfl⟩

lemma Stopwatch.Reaches.chain_le {s : Stopwatch} {t : Nat} (h : s.Reaches t) :
    List.Chain' (fun a b => a.2 ≤ b.2) s.measurements ∧
      ∀ x ∈ s.measurements, x.2 ≤ t := by
  induction h with
  | create t =>
    refine ⟨List.chain'_singleton _, ?_⟩
    intro x hx
    simp only [Stopwatch.create, List.mem_singleton] at hx
    simp [hx]
  | add label _ hle ih =>
    rcases ih with ⟨hchain, hbound⟩
    simp only [Stopwatch.addMeasurement]
    constructor
    · rw [List.chain'_append]
      refine ⟨hchain, List.chain'_singleton _, ?_⟩
      intro x hx y hy
      simp only [List.head?_cons, Option.mem_def, Option.some.injEq] at hy
      have hx' : x ∈ Stopwatch.measurements _ := List.mem_of_mem_getLast? hx
      calc x.2 ≤ _ := hbound x hx'
        _ ≤ _ := hle
        _ = y.2 := by rw [← hy]
    · intro x hx
      rcases List.mem_append.mp hx with hx | hx
      · exact le_trans (hbound x hx) hle
      · simp only [List.mem_singleton] at hx
        simp [hx]
  | addSampled label count _ hle ih =>
    rcases ih with ⟨hchain, hbound⟩
    simp only [Stopwatch.addMeasurementSampled]
    constructor
    · rw [List.chain'_append]
      refine ⟨hchain, List.chain'_singleton _, ?_⟩
      intro x hx y hy
      simp only [List.head?_cons, Option.mem_def, Option.some.injEq] at hy
      have hx' : x ∈ Stopwatch.measurements _ := List.mem_of_mem_getLast? hx
      calc x.2 ≤ _ := hbound x hx'
        _ ≤ _ := hle
        _ = y.2 := by rw [← hy]
    · intro x hx
      rcases List.mem_append.mp hx with hx | hx
      · exact le_trans (hbound x hx) hle
      · simp only [List.mem_singleton] at hx
        simp [hx]

lemma chain_le_of_decomp {ms front rest : List (String × Nat)}
    {previous current : String × Nat}
    (hchain : List.Chain' (fun a b => a.2 ≤ b.2) ms)
    (hm : ms = front ++ previous :: current :: rest) :
    previous.2 ≤ current.2 := by
  rw [hm, List.chain'_append] at hchain
  exact (List.chain'_cons.mp hchain.2.1).1

lemma durationMicros_nonneg {a b : Nat} (hab : a ≤ b) :
    0 ≤ durationMicros a b := by
  apply Int.tdiv_nonneg
  · omega
  · norm_num

lemma secondsOf_nonneg {d : Int} (hd : 0 ≤ d) : 0 ≤ secondsOf d := by
  unfold secondsOf
  positivity

/-! The claims. -/

/-- Claim C1: for every Stopwatch state and call instant, `getTimingTrace`
produces exactly one "Total" line and exactly N − 1 interval lines, N
being the number of recorded measurements (the initial "start" entry
included); immediately after construction the trace is exactly the
Total line, with no interval lines. -/
theorem claim1_line_counts (s : Stopwatch) (now t : Nat) :
    (timingTraceLines s now).countP TraceLine.isTotal = 1
    ∧ (timingTraceLines s now).head? =
        some (TraceLine.total (secondsOf (durationMicros s.startTime now)))
    ∧ (timingTraceLines s now).countP TraceLine.isInterval =
        s.measurements.length - 1
    ∧ timingTraceLines (Stopwatch.create t) now =
        [TraceLine.total (secondsOf (durationMicros t now))] := by
  refine ⟨?_, rfl, ?_, rfl⟩
  · show (TraceLine.total _ :: intervalLines s.measurements s.samples).countP
      TraceLine.isTotal = 1
    rw [List.countP_cons, countP_intervalLines_isTotal]
    rfl
  · show (TraceLine.total _ :: intervalLines s.measurements s.samples).countP
      TraceLine.isInterval = s.measurements.length - 1
    rw [List.countP_cons, countP_intervalLines_isInterval]
    rfl

/-- Claim C3: the "Total" value is the duration from the first recorded
measurement's timestamp (the "start" entry, `measurements[0]`) to the
`now` sampled freshly at call time — an arbitrary instant independent of
the last measurement — and the line reads "Total; start -> now: ⟨seconds⟩s". -/
theorem claim3_total_line (s : Stopwatch) (hs : s.Reachable) (now : Nat) :
    (timingTraceLines s now).head? =
      some (TraceLine.total (secondsOf (durationMicros s.startTime now)))
    ∧ (s.measurements.headD ("", 0)).1 = "start"
    ∧ renderLine (TraceLine.total (secondsOf (durationMicros s.startTime now))) =
        "Total; start -> now: " ++
          renderRat (secondsOf (durationMicros s.startTime now)) ++ "s\n"
    ∧ s.startTime = (s.measurements.headD ("", 0)).2 := by
  rcases hs with ⟨t, h⟩
  refine ⟨rfl, ?_, rfl, rfl⟩
  rcases h.headD_start with ⟨t0, h0⟩
  rw [h0]

/-- Witness for C3 at a freshly constructed Stopwatch and call instant 7. -/
theorem claim3_total_line_witness :
    Stopwatch.Reachable (Stopwatch.create 0)
    ∧ ((timingTraceLines (Stopwatch.create 0) 7).head? =
        some (TraceLine.total
          (secondsOf (durationMicros (Stopwatch.create 0).startTime 7)))
      ∧ ((Stopwatch.create 0).measurements.headD ("", 0)).1 = "start"
      ∧ renderLine (TraceLine.total
            (secondsOf (durationMicros (Stopwatch.create 0).startTime 7))) =
          "Total; start -> now: " ++
            renderRat (secondsOf (durationMicros (Stopwatch.create 0).startTime 7))
            ++ "s\n"
      ∧ (Stopwatch.create 0).startTime =
          ((Stopwatch.create 0).measurements.headD ("", 0)).2) :=
  ⟨⟨0, Stopwatch.Reaches.create 0⟩,
    claim3_total_line (Stopwatch.create 0) ⟨0, Stopwatch.Reaches.create 0⟩ 7⟩

/-- Claim C5: on every state reachable under the monotonic clock, the
measurement timestamps are non-decreasing in insertion order, so the
duration reported for any consecutive pair is non-negative. -/
theorem claim5_monotone (s : Stopwatch) (t : Nat) (h : s.Reaches t)
    (front rest : List (String × Nat)) (previous current : String × Nat)
    (hm : s.measurements = front ++ previous :: current :: rest) :
    List.Chain' (fun a b => a.2 ≤ b.2) s.measurements
    ∧ previous.2 ≤ current.2
    ∧ 0 ≤ durationMicros previous.2 current.2
    ∧ 0 ≤ secondsOf (durationMicros previous.2 current.2) := by
  obtain ⟨hchain, -⟩ := h.chain_le
  have hpc : previous.2 ≤ current.2 := chain_le_of_decomp hchain hm
  exact ⟨hchain, hpc, durationMicros_nonneg hpc,
    secondsOf_nonneg (durationMicros_nonneg hpc)⟩

/-- Witness for C5 on the state start@0 then "a"@2500. -/
theorem claim5_monotone_witness :
    ((Stopwatch.create 0).addMeasurement "a" 2500).measurements =
        [] ++ ("start", 0) :: ("a", 2500) :: []
    ∧ (List.Chain' (fun a b => a.2 ≤ b.2)
          ((Stopwatch.create 0).addMeasurement "a" 2500).measurements
      ∧ (("start", 0) : String × Nat).2 ≤ (("a", 2500) : String × Nat).2
      ∧ 0 ≤ durationMicros 0 2500
      ∧ 0 ≤ secondsOf (durationMicros 0 2500)) :=
  ⟨rfl, claim5_monotone ((Stopwatch.create 0).addMeasurement "a" 2500) 2500
    (Stopwatch.Reaches.add "a" (Stopwatch.Reaches.create 0) (Nat.zero_le 2500))
    [] [] ("start", 0) ("a", 2500) rfl⟩

/-- Claim C6: every reachable state has a nonempty measurement sequence
headed by the "start" entry recorded at construction, and each operation
only appends to the two sequences — existing entries are never removed
or modified. -/
theorem claim6_append_only (s : Stopwatch) (hs : s.Reachable) (label : String)
    (count : Int) (now : Nat) :
    s.measurements ≠ []
    ∧ (s.measurements.headD ("", 0)).1 = "start"
    ∧ (s.addMeasurement label now).measurements = s.measurements ++ [(label, now)]
    ∧ (s.addMeasurement label now).samples = s.samples
    ∧ (s.addMeasurementSampled label count now).measurements =
        s.measurements ++ [(label, now)]
    ∧ (s.addMeasurementSampled label count now).samples =
        s.samples ++ [(label, count)] := by
  rcases hs with ⟨t, h⟩
  refine ⟨h.measurements_ne_nil, ?_, rfl, rfl, rfl, rfl⟩
  rcases h.headD_start with ⟨t0, h0⟩
  rw [h0]

/-- Witness for C6 at a freshly constructed Stopwatch. -/
theorem claim6_append_only_witness :
    Stopwatch.Reachable (Stopwatch.create 0)
    ∧ ((Stopwatch.create 0).measurements ≠ []
      ∧ ((Stopwatch.create 0).measurements.headD ("", 0)).1 = "start"
      ∧ ((Stopwatch.create 0).addMeasurement "x" 5).measurements =
          (Stopwatch.create 0).measurements ++ [("x", 5)]
      ∧ ((Stopwatch.create 0).addMeasurement "x" 5).samples =
          (Stopwatch.create 0).samples
      ∧ ((Stopwatch.create 0).addMeasurementSampled "x" (-3) 5).measurements =
          (Stopwatch.create 0).measurements ++ [("x", 5)]
      ∧ ((Stopwatch.create 0).addMeasurementSampled "x" (-3) 5).samples =
          (Stopwatch.create 0).samples ++ [("x", -3)]) :=
  ⟨⟨0, Stopwatch.Reaches.create 0⟩,
    claim6_append_only (Stopwatch.create 0) ⟨0, Stopwatch.Reaches.create 0⟩
      "x" (-3) 5⟩

/-- Claim C7: `getTimingTrace` reads but never writes the state; the
lines after the Total line depend only on the stored sequences, so two
calls with no measurement added in between produce identical interval
and per-sample lines, only the Total line (whose value uses the fresh
`now`) may differ. -/
theorem claim7_pure (s : Stopwatch) (n1 n2 : Nat) :
    (timingTraceLines s n1).tail = intervalLines s.measurements s.samples
    ∧ (timingTraceLines s n1).tail = (timingTraceLines s n2).tail
    ∧ (timingTraceLines s n1).head? =
        some (TraceLine.total (secondsOf (durationMicros s.startTime n1)))
    ∧ (timingTraceLines s n2).head? =
        some (TraceLine.total (secondsOf (durationMicros s.startTime n2)))
    ∧ s.getTimingTrace n1 =
        renderLine (TraceLine.total (secondsOf (durationMicros s.startTime n1)))
          ++ renderLines (intervalLines s.measurements s.samples) :=
  ⟨rfl, rfl, rfl, rfl, rfl⟩

/-- Claim C8: the two-argument `addMeasurement` appends exactly the
measurement that the one-argument variant would append, and additionally
appends exactly the one entry (label, count) to the sample sequence. -/
theorem claim8_sampled_add (s : Stopwatch) (label : String) (count : Int)
    (now : Nat) :
    (s.addMeasurementSampled label count now).measurements =
        (s.addMeasurement label now).measurements
    ∧ (s.addMeasurement label now).measurements = s.measurements ++ [(label, now)]
    ∧ (s.addMeasurementSampled label count now).samples =
        s.samples ++ [(label, count)] :=
  ⟨rfl, rfl, rfl⟩

/-- Claim C10: the one-argument `addMeasurement` never touches the
sample sequence — it appends its measurement and leaves `samples`
unchanged; only the two-argument variant extends `samples`. -/
theorem claim10_plain_add_frame (s : Stopwatch) (label : String) (count : Int)
    (now : Nat) :
    (s.addMeasurement label now).samples = s.samples
    ∧ (s.addMeasurement label now).measurements = s.measurements ++ [(label, now)]
    ∧ (s.addMeasurementSampled label count now).samples =
        s.samples ++ [(label, count)] :=
  ⟨rfl, rfl, rfl⟩

/-- Claim C2: for every consecutive pair (previous, current) — current at
index 1 or later — the trace contains, right after that pair's interval
line, one "per sample" line for every entry of the sample sequence whose
label equals current's label (one line per match, even when labels
collide), each carrying the interval seconds divided by that entry's
count; dividing by a count of 1 leaves the interval value unchanged. -/
theorem claim2_per_sample_lines (s : Stopwatch) (now : Nat)
    (front rest : List (String × Nat)) (previous current : String × Nat)
    (hm : s.measurements = front ++ previous :: current :: rest) :
    timingTraceLines s now =
      TraceLine.total (secondsOf (durationMicros s.startTime now)) ::
        (intervalLines (front ++ [previous]) s.samples ++
          ((TraceLine.interval previous.1 current.1
              (secondsOf (durationMicros previous.2 current.2)) ::
            (s.samples.filter (fun p => p.1 = current.1)).map
              (fun p => TraceLine.perSample previous.1 current.1
                (secondsOf (durationMicros previous.2 current.2) / (p.2 : Rat)))) ++
            intervalLines (current :: rest) s.samples))
    ∧ secondsOf (durationMicros previous.2 current.2) / ((1 : Int) : Rat) =
        secondsOf (durationMicros previous.2 current.2) := by
  constructor
  · simp only [timingTraceLines]
    rw [hm, intervalLines_decomp]
    rfl
  · rw [Int.cast_one, div_one]

/-- Witness for C2 on start@0 then a sampled measurement "a"@2500 with
count 2, read out at instant 9999. -/
theorem claim2_per_sample_lines_witness :
    ((Stopwatch.create 0).addMeasurementSampled "a" 2 2500).measurements =
        [] ++ ("start", 0) :: ("a", 2500) :: []
    ∧ (timingTraceLines ((Stopwatch.create 0).addMeasurementSampled "a" 2 2500)
          9999 =
        TraceLine.total (secondsOf (durationMicros
            ((Stopwatch.create 0).addMeasurementSampled "a" 2 2500).startTime
            9999)) ::
          (intervalLines ([] ++ [("start", 0)])
              ((Stopwatch.create 0).addMeasurementSampled "a" 2 2500).samples ++
            ((TraceLine.interval "start" "a" (secondsOf (durationMicros 0 2500)) ::
              (((Stopwatch.create 0).addMeasurementSampled "a" 2 2500).samples.filter
                  (fun p => p.1 = "a")).map
                (fun p => TraceLine.perSample "start" "a"
                  (secondsOf (durationMicros 0 2500) / (p.2 : Rat)))) ++
              intervalLines [("a", 2500)]
                ((Stopwatch.create 0).addMeasurementSampled "a" 2 2500).samples))
      ∧ secondsOf (durationMicros 0 2500) / ((1 : Int) : Rat) =
          secondsOf (durationMicros 0 2500)) :=
  ⟨rfl, claim2_per_sample_lines
    ((Stopwatch.create 0).addMeasurementSampled "a" 2 2500) 9999
    [] [] ("start", 0) ("a", 2500) rfl⟩

/-- Claim C4: for each consecutive pair (previous, current) starting at
index 1, the trace contains exactly one interval line for the pair, of
the form "previous.label -> current.label: ⟨seconds⟩s", whose value is
the tick difference truncated to whole microseconds and divided by
1,000,000. -/
theorem claim4_interval_lines (s : Stopwatch) (now : Nat)
    (front rest : List (String × Nat)) (previous current : String × Nat)
    (hm : s.measurements = front ++ previous :: current :: rest) :
    timingTraceLines s now =
      TraceLine.total (secondsOf (durationMicros s.startTime now)) ::
        (intervalLines (front ++ [previous]) s.samples ++
          ((TraceLine.interval previous.1 current.1
              (secondsOf (durationMicros previous.2 current.2)) ::
            perSampleLines previous.1 current.1
              (durationMicros previous.2 current.2) s.samples) ++
            intervalLines (current :: rest) s.samples))
    ∧ renderLine (TraceLine.interval previous.1 current.1
          (secondsOf (durationMicros previous.2 current.2))) =
        previous.1 ++ " -> " ++ current.1 ++ ": " ++
          renderRat (secondsOf (durationMicros previous.2 current.2)) ++ "s\n"
    ∧ durationMicros previous.2 current.2 =
        Int.tdiv ((current.2 : Int) - (previous.2 : Int)) 1000
    ∧ secondsOf (durationMicros previous.2 current.2) =
        ((durationMicros previous.2 current.2 : Int) : Rat) / 1000000 := by
  refine ⟨?_, rfl, rfl, rfl⟩
  simp only [timingTraceLines]
  rw [hm, intervalLines_decomp]
  rfl

/-- Witness for C4 on start@0 then "b"@1500, read out at instant 4000. -/
theorem claim4_interval_lines_witness :
    ((Stopwatch.create 0).addMeasurement "b" 1500).measurements =
        [] ++ ("start", 0) :: ("b", 1500) :: []
    ∧ (timingTraceLines ((Stopwatch.create 0).addMeasurement "b" 1500) 4000 =
        TraceLine.total (secondsOf (durationMicros
            ((Stopwatch.create 0).addMeasurement "b" 1500).startTime 4000)) ::
          (intervalLines ([] ++ [("start", 0)])
              ((Stopwatch.create 0).addMeasurement "b" 1500).samples ++
            ((TraceLine.interval "start" "b" (secondsOf (durationMicros 0 1500)) ::
              perSampleLines "start" "b" (durationMicros 0 1500)
                ((Stopwatch.create 0).addMeasurement "b" 1500).samples) ++
              intervalLines [("b", 1500)]
                ((Stopwatch.create 0).addMeasurement "b" 1500).samples))
      ∧ renderLine (TraceLine.interval "start" "b"
            (secondsOf (durationMicros 0 1500))) =
          "start" ++ " -> " ++ "b" ++ ": " ++
            renderRat (secondsOf (durationMicros 0 1500)) ++ "s\n"
      ∧ durationMicros 0 1500 = Int.tdiv (((1500 : Nat) : Int) - ((0 : Nat) : Int)) 1000
      ∧ secondsOf (durationMicros 0 1500) =
          ((durationMicros 0 1500 : Int) : Rat) / 1000000) :=
  ⟨rfl, claim4_interval_lines ((Stopwatch.create 0).addMeasurement "b" 1500) 4000
    [] [] ("start", 0) ("b", 1500) rfl⟩

/-- Claim C9: `getTimingTrace` is total over all misuse — empty labels,
duplicate labels, non-positive counts included: every state yields a
trace headed by the Total line, and a per-sample division by a count
k ≤ 0 of a positive interval yields a degenerate non-positive value
(negative for k < 0, the division-by-zero artifact for k = 0) rather
than an error. -/
theorem claim9_total_on_misuse (s : Stopwatch) (now : Nat) (k d : Int)
    (hk : k ≤ 0) (hd : 0 < d) :
    timingTraceLines s now ≠ []
    ∧ (timingTraceLines s now).head? =
        some (TraceLine.total (secondsOf (durationMicros s.startTime now)))
    ∧ s.getTimingTrace now = renderLines (timingTraceLines s now)
    ∧ 0 < secondsOf d
    ∧ secondsOf d / (k : Rat) ≤ 0 := by
  have hpos : 0 < secondsOf d := by
    unfold secondsOf
    have : (0 : Rat) < (d : Rat) := by exact_mod_cast hd
    positivity
  refine ⟨by simp [timingTraceLines], rfl, rfl, hpos, ?_⟩
  rcases lt_or_eq_of_le hk with hk' | hk'
  · have : (k : Rat) < 0 := by exact_mod_cast hk'
    exact le_of_lt (div_neg_of_pos_of_neg hpos this)
  · rw [hk', Int.cast_zero, div_zero]

/-- Witness for C9 on a state holding an empty label, a duplicate label
and a zero count, with interval value 1 µs. -/
theorem claim9_total_on_misuse_witness :
    ((0 : Int) ≤ 0)
    ∧ ((0 : Int) < 1)
    ∧ (timingTraceLines
          (((Stopwatch.create 0).addMeasurementSampled "" 0 10).addMeasurementSampled
            "" 0 20) 30 ≠ []
      ∧ (timingTraceLines
            (((Stopwatch.create 0).addMeasurementSampled "" 0 10).addMeasurementSampled
              "" 0 20) 30).head? =
          some (TraceLine.total (secondsOf (durationMicros
            (((Stopwatch.create 0).addMeasurementSampled "" 0 10).addMeasurementSampled
              "" 0 20).startTime 30)))
      ∧ Stopwatch.getTimingTrace
            (((Stopwatch.create 0).addMeasurementSampled "" 0 10).addMeasurementSampled
              "" 0 20) 30 =
          renderLines (timingTraceLines
            (((Stopwatch.create 0).addMeasurementSampled "" 0 10).addMeasurementSampled
              "" 0 20) 30)
      ∧ 0 < secondsOf 1
      ∧ secondsOf 1 / ((0 : Int) : Rat) ≤ 0) :=
  ⟨le_refl 0, by decide,
    claim9_total_on_misuse
      (((Stopwatch.create 0).addMeasurementSampled "" 0 10).addMeasurementSampled
        "" 0 20) 30 0 1 (le_refl 0) (by decide)⟩
